import Mathlib

set_option linter.unusedSectionVars false
set_option linter.unusedVariables false

/-!
Verification of the parallel-hatching engine of this repository against its
natural-language specification.

The repository contains two variants of the engine:

* a planar variant, `createParallelHatching` in
  `src/lines/parallelHatchingAlgorithm.ts`: equirectangular projection,
  rotation by the line angle, and a scan-line sweep in the rotated plane;
* a geodesic variant, `createParallelHatching` in the unnamed module
  (`src/unnamed/part_001`): bounding-box construction and per-line
  segment intersection, with all geodesic calculations
  (`ellipsoid.getDestination`, `ellipsoid.getGeodesicDistance`,
  `lonLatToCartesian`, `Vec3.normalize`) delegated to the external
  openglobus collaborator.

The numeric work of both variants is embedded below over an abstract linear
ordered field (instantiated at `ℚ` for concrete evaluations and at `ℝ` for
trigonometric statements).  The JavaScript `Math` library and the openglobus
ellipsoid are external collaborators of the repository and are therefore
modelled as explicit parameter structures (`MathLib`, `EllipsoidModel`):
every theorem about them quantifies over the collaborator or instantiates it
with a concrete model.
-/

namespace Hatching

variable {α : Type} [LinearOrderedField α] [FloorRing α]

/-- Model of the JavaScript `Math` collaborator used by the planar variant:
`Math.PI`, `Math.cos`, `Math.sin`. -/
structure MathLib (α : Type) where
  pi : α
  cos : α → α
  sin : α → α

/-- Options record of the planar variant
(`parallelHatchingAlgorithm.ts` lines 12-17).  `none` models an omitted
optional field; the source applies destructuring defaults
`lineSpacing = 100, lineAngle = 0, lineExtension = 50` (lines 18-23),
which fire only for an omitted (`undefined`) field, i.e. `Option.getD`. -/
structure PlanarOptions (α : Type) where
  polygonCoordinates : List (List (α × α))
  lineSpacing : Option α
  lineAngle : Option α
  lineExtension : Option α

/-- Options record of the geodesic variant (`part_001` lines 12-17). -/
structure GeoOptions (α : Type) where
  polygonCoordinates : List (α × α)
  step : Option α
  bearing : Option α
  offset : Option α

/-- Bounding box of `part_001` (`findBoundingBox` return type). -/
structure BBox (α : Type) where
  minLon : α
  maxLon : α
  minLat : α
  maxLat : α

/-- Model of the external openglobus ellipsoid collaborator used by the
geodesic variant: forward geodesic `getDestination(lonLat, bearing, dist)`,
inverse geodesic `getGeodesicDistance`, cartesian conversion
`lonLatToCartesian`, and the library vector normalisation `Vec3.normalize`.
Points are `(lon, lat)` pairs, cartesian vectors are triples. -/
structure EllipsoidModel (α : Type) where
  getDestination : (α × α) → α → α → (α × α)
  getGeodesicDistance : (α × α) → (α × α) → α
  lonLatToCartesian : (α × α) → α × α × α
  normalize : α × α × α → α × α × α

/-- JavaScript `x || d` applied to an optional numeric parameter: an absent
or zero (falsy) value is replaced by the default (`part_001` lines 20-22). -/
def jsOr (v : Option α) (d : α) : α :=
  match v with
  | none => d
  | some x => if x = 0 then d else x

/-- JavaScript truncation toward zero, as used by the `%` operator. -/
def jsTrunc (x : α) : ℤ :=
  if 0 ≤ x then ⌊x⌋ else -⌊-x⌋

/-- JavaScript remainder operator `a % b` on numbers (sign of the dividend). -/
def jsMod (a b : α) : α :=
  a - b * (jsTrunc (a / b) : α)

/-- Consecutive pairing `(hit[2k], hit[2k+1])` shared by both variants:
the planar loop `for (pairIndex; pairIndex + 1 < n; pairIndex += 2)`
(`parallelHatchingAlgorithm.ts` line 98) and the geodesic loop
`for (j; j < n; j += 2) if (j + 1 < n) push` (`part_001` lines 74-92).
A trailing unpaired element is dropped. -/
def pairUp {β : Type} : List β → List (β × β)
  | a :: b :: t => (a, b) :: pairUp t
  | _ => []

/-- Insertion of an element into a sorted list, keeping it before the first
element it compares less-or-equal to. -/
def insertSorted {β : Type} (le : β → β → Bool) (a : β) : List β → List β
  | [] => [a]
  | b :: t => if le a b then a :: b :: t else b :: insertSorted le a t

/-- Stable comparison sort, modelling JavaScript `Array.prototype.sort`
with a numeric comparator (stable per the ECMAScript specification). -/
def stableSort {β : Type} (le : β → β → Bool) : List β → List β
  | [] => []
  | a :: t => insertSorted le a (stableSort le t)

/-- Minimum of a list, modelling `Math.min(...xs)` for nonempty `xs`. -/
def minList : List α → α
  | [] => 0
  | a :: t => t.foldl min a

/-- Maximum of a list, modelling `Math.max(...xs)` for nonempty `xs`. -/
def maxList : List α → α
  | [] => 0
  | a :: t => t.foldl max a

/-- Projection of one geographic point into rotated planar meters
(`parallelHatchingAlgorithm.ts` lines 48-61): equirectangular projection
with Earth radius 6371000 followed by rotation by the line angle.
`cosAvg` is the cosine of the mean-latitude radians, `cosAngle`/`sinAngle`
the precomputed cosine and sine of the angle radians (lines 44-45). -/
def projectPoint (piA cosAvg cosAngle sinAngle : α) (q : α × α) : α × α :=
  let longitudeRadians := q.1 * piA / 180
  let latitudeRadians := q.2 * piA / 180
  let projectedX := 6371000 * longitudeRadians * cosAvg
  let projectedY := 6371000 * latitudeRadians
  (cosAngle * projectedX + sinAngle * projectedY,
   -sinAngle * projectedX + cosAngle * projectedY)

/-- Inverse transform used when emitting a segment
(`parallelHatchingAlgorithm.ts` lines 103-112): rotate back, then invert
the equirectangular formulas. -/
def unprojectPoint (piA cosAvg cosAngle sinAngle : α) (p : α × α) : α × α :=
  let rotatedX := cosAngle * p.1 - sinAngle * p.2
  let rotatedY := sinAngle * p.1 + cosAngle * p.2
  (rotatedX / (6371000 * cosAvg) * 180 / piA, rotatedY / 6371000 * 180 / piA)

/-- Projection of the whole ring (`parallelHatchingAlgorithm.ts`
lines 39-61): mean latitude via `reduce`, then per-point projection and
rotation. -/
def projectedPointsOf (M : MathLib α) (lineAngle : α) (polygonPoints : List (α × α)) : List (α × α) :=
  let avgLatitude := (polygonPoints.foldl (fun sum point => sum + point.2) 0) / (polygonPoints.length : α)
  let avgLatitudeRadians := avgLatitude * M.pi / 180
  let angleRadians := lineAngle * M.pi / 180
  let cosAngle := M.cos angleRadians
  let sinAngle := M.sin angleRadians
  polygonPoints.map (fun q => projectPoint M.pi (M.cos avgLatitudeRadians) cosAngle sinAngle q)

/-- Modelled from the spec, section 4.2 `toPlanar`: `originLatitude` is the
arithmetic mean of the ring latitudes; each point maps to
`x = R lon_rad cos(originLatitude_rad)`, `y = R lat_rad` with `R = 6371000`,
then rotates to `(cos b x + sin b y, -sin b x + cos b y)`.  Written from the
specification wording, to be compared with `projectedPointsOf`. -/
def specToPlanar (M : MathLib α) (bearing : α) (ring : List (α × α)) : List (α × α) :=
  let originLatitude := ((ring.map Prod.snd).sum) / (ring.length : α)
  ring.map (fun q =>
    let x := 6371000 * (q.1 * M.pi / 180) * M.cos (originLatitude * M.pi / 180)
    let y := 6371000 * (q.2 * M.pi / 180)
    (M.cos (bearing * M.pi / 180) * x + M.sin (bearing * M.pi / 180) * y,
     -(M.sin (bearing * M.pi / 180)) * x + M.cos (bearing * M.pi / 180) * y))

/-- Fuel-indexed unfolding of the sweep loop
`for (linePosition = leftBoundary; linePosition <= rightBoundary;
linePosition += lineSpacing)` (`parallelHatchingAlgorithm.ts` line 72).
Returns the visited positions together with a flag that is `true` exactly
when the loop exited by its condition within the given fuel; with
non-positive spacing the source loop never exits on a nonempty range. -/
def scanLoopF (lineSpacing rightBoundary : α) : ℕ → α → List α × Bool
  | 0, p => ([], decide (rightBoundary < p))
  | n + 1, p =>
    if p ≤ rightBoundary then
      let r := scanLoopF lineSpacing rightBoundary n (p + lineSpacing)
      (p :: r.1, r.2)
    else ([], true)

/-- Number of iterations the sweep loop performs when the spacing is
positive. -/
def scanCount (lineSpacing rightBoundary p : α) : ℕ :=
  if p ≤ rightBoundary then (⌊(rightBoundary - p) / lineSpacing⌋).toNat + 1 else 0

/-- The scan-line positions visited by the sweep loop, with enough fuel to
complete whenever the spacing is positive. -/
def scanPositions (leftBoundary rightBoundary lineSpacing : α) : List α :=
  (scanLoopF lineSpacing rightBoundary ((⌊(rightBoundary - leftBoundary) / lineSpacing⌋).toNat + 1) leftBoundary).1

/-- Left sweep bound (`parallelHatchingAlgorithm.ts` line 65):
lowest rotated x-coordinate minus the extension. -/
def leftBoundaryOf (pts : List (α × α)) (lineExtension : α) : α :=
  minList (pts.map Prod.fst) - lineExtension

/-- Right sweep bound (`parallelHatchingAlgorithm.ts` line 66):
highest rotated x-coordinate plus the extension. -/
def rightBoundaryOf (pts : List (α × α)) (lineExtension : α) : α :=
  maxList (pts.map Prod.fst) + lineExtension

/-- Hits of one scan line against the explicitly listed consecutive edges
(`parallelHatchingAlgorithm.ts` lines 74-92): an edge is skipped when both
endpoints are strictly on one side of the line or when it is vertical in x;
otherwise the interpolated y-value is recorded.  The loop runs
`edgeIndex` from `0` to `length - 2`; no closing edge is added. -/
def intersectionsAt (pts : List (α × α)) (linePosition : α) : List α :=
  (pts.zip pts.tail).filterMap (fun e =>
    if (linePosition < e.1.1 ∧ linePosition < e.2.1) ∨
       (e.1.1 < linePosition ∧ e.2.1 < linePosition) ∨ e.1.1 = e.2.1 then none
    else
      let edgeProgress := (linePosition - e.1.1) / (e.2.1 - e.1.1)
      some (e.1.2 + edgeProgress * (e.2.2 - e.1.2)))

/-- Segments emitted for one scan line (`parallelHatchingAlgorithm.ts`
lines 94-116, before the geographic back-conversion): sort the hits
ascending, pair them consecutively, and extend each pair outward by the
extension. -/
def lineSegments (pts : List (α × α)) (lineExtension linePosition : α) : List ((α × α) × (α × α)) :=
  (pairUp (stableSort (fun a b => decide (a ≤ b)) (intersectionsAt pts linePosition))).map
    (fun pr => ((linePosition, pr.1 - lineExtension), (linePosition, pr.2 + lineExtension)))

/-- The full planar sweep over the projected polygon
(`parallelHatchingAlgorithm.ts` lines 63-117, planar segments). -/
def sweepEmit (pts : List (α × α)) (lineSpacing lineExtension : α) : List ((α × α) × (α × α)) :=
  (scanPositions (leftBoundaryOf pts lineExtension) (rightBoundaryOf pts lineExtension) lineSpacing).flatMap
    (fun linePosition => lineSegments pts lineExtension linePosition)

/-- Planar length of an emitted scan-line segment: both endpoints share the
x-coordinate of the scan line, so the length is the y-difference. -/
def planarLength (seg : (α × α) × (α × α)) : α :=
  seg.2.2 - seg.1.2

/-- The planar variant `createParallelHatching`
(`parallelHatchingAlgorithm.ts` lines 12-120): destructuring defaults,
first-ring selection, the ring-size guard returning `[]`, projection,
sweep, and geographic back-conversion of every emitted segment. -/
def createParallelHatchingPlanar (M : MathLib α) (o : PlanarOptions α) : List ((α × α) × (α × α)) :=
  let lineSpacing := o.lineSpacing.getD 100
  let lineAngle := o.lineAngle.getD 0
  let lineExtension := o.lineExtension.getD 50
  let polygonPoints := o.polygonCoordinates.headD []
  if polygonPoints.length < 4 then []
  else
    let avgLatitude := (polygonPoints.foldl (fun sum point => sum + point.2) 0) / (polygonPoints.length : α)
    let avgLatitudeRadians := avgLatitude * M.pi / 180
    let angleRadians := lineAngle * M.pi / 180
    let cosAngle := M.cos angleRadians
    let sinAngle := M.sin angleRadians
    let projectedPoints := polygonPoints.map (fun q => projectPoint M.pi (M.cos avgLatitudeRadians) cosAngle sinAngle q)
    (sweepEmit projectedPoints lineSpacing lineExtension).map (fun seg =>
      (unprojectPoint M.pi (M.cos avgLatitudeRadians) cosAngle sinAngle seg.1,
       unprojectPoint M.pi (M.cos avgLatitudeRadians) cosAngle sinAngle seg.2))

/-- Checks whether a point lies on a line segment (`part_001` lines 300-330):
cross product within the tolerance of zero and scalar projection within
`[0, squaredLength]`.  The source default tolerance is `1e-10`. -/
def isPointOnLineSegment (point lineStart lineEnd : ℚ × ℚ) (tolerance : ℚ) : Bool :=
  let vectorLine := (lineEnd.1 - lineStart.1, lineEnd.2 - lineStart.2)
  let vectorPoint := (point.1 - lineStart.1, point.2 - lineStart.2)
  let cross := vectorLine.1 * vectorPoint.2 - vectorLine.2 * vectorPoint.1
  if |cross| > tolerance then false
  else
    let dotProduct := vectorLine.1 * vectorPoint.1 + vectorLine.2 * vectorPoint.2
    let squaredLength := vectorLine.1 * vectorLine.1 + vectorLine.2 * vectorLine.2
    decide (0 ≤ dotProduct ∧ dotProduct ≤ squaredLength)

/-- Intersection of two line segments (`part_001` lines 335-372): solve the
2-by-2 general-form system; `none` when the determinant is below `1e-10` in
absolute value or when the solved point fails the on-segment test for either
segment.  Both on-segment calls use the source default tolerance `1e-10`. -/
def findIntersection (line1Start line1End line2Start line2End : ℚ × ℚ) : Option (ℚ × ℚ) :=
  let a1 := line1End.2 - line1Start.2
  let b1 := line1Start.1 - line1End.1
  let c1 := a1 * line1Start.1 + b1 * line1Start.2
  let a2 := line2End.2 - line2Start.2
  let b2 := line2Start.1 - line2End.1
  let c2 := a2 * line2Start.1 + b2 * line2Start.2
  let determinant := a1 * b2 - a2 * b1
  if |determinant| < 1 / 10 ^ 10 then none
  else
    let x := (b2 * c1 - b1 * c2) / determinant
    let y := (a1 * c2 - a2 * c1) / determinant
    if isPointOnLineSegment (x, y) line1Start line1End (1 / 10 ^ 10) &&
       isPointOnLineSegment (x, y) line2Start line2End (1 / 10 ^ 10) then some (x, y)
    else none

/-- Bounding box of a polygon (`part_001` lines 103-122).  The source folds
`Math.min`/`Math.max` from infinities; this model folds from the first point
and agrees with the source on every nonempty polygon. -/
def findBoundingBox (polygon : List (ℚ × ℚ)) : BBox ℚ :=
  { minLon := minList (polygon.map Prod.fst)
    maxLon := maxList (polygon.map Prod.fst)
    minLat := minList (polygon.map Prod.snd)
    maxLat := maxList (polygon.map Prod.snd) }

/-- Forward geodesic step (`part_001` lines 217-228), delegated to the
ellipsoid collaborator. -/
def calculateDestination (start : ℚ × ℚ) (bearing distance : ℚ) (E : EllipsoidModel ℚ) : ℚ × ℚ :=
  E.getDestination start bearing distance

/-- Geodesic distance (`part_001` lines 245-254), delegated to the
ellipsoid collaborator. -/
def calculateDistance (point1 point2 : ℚ × ℚ) (E : EllipsoidModel ℚ) : ℚ :=
  E.getGeodesicDistance point1 point2

/-- Extension of a bounding box by a distance in meters
(`part_001` lines 127-150): step from the center in the four cardinal
directions and widen each bound by the coordinate change. -/
def extendBoundingBox (box : BBox ℚ) (E : EllipsoidModel ℚ) (distanceMeters : ℚ) : BBox ℚ :=
  let center := ((box.minLon + box.maxLon) / 2, (box.minLat + box.maxLat) / 2)
  let north := calculateDestination center 0 distanceMeters E
  let east := calculateDestination center 90 distanceMeters E
  let south := calculateDestination center 180 distanceMeters E
  let west := calculateDestination center 270 distanceMeters E
  { minLon := box.minLon - (center.1 - west.1)
    maxLon := box.maxLon + (east.1 - center.1)
    minLat := box.minLat - (center.2 - south.2)
    maxLat := box.maxLat + (north.2 - center.2) }

/-- Conversion of latitude and longitude to cartesian coordinates
(`part_001` lines 259-266), delegated to the collaborator. -/
def latLonToCartesian (lat lon : ℚ) (E : EllipsoidModel ℚ) : ℚ × ℚ × ℚ :=
  E.lonLatToCartesian (lon, lat)

/-- Dot product of two cartesian vectors (`Vec3.dot`). -/
def vec3Dot (v w : ℚ × ℚ × ℚ) : ℚ :=
  v.1 * w.1 + v.2.1 * w.2.1 + v.2.2 * w.2.2

/-- Unit direction vector of a bearing at a point (`part_001`
lines 271-295): difference of the cartesian images of the point and of a
point 1000 meters away along the bearing, normalised by the collaborator. -/
def bearingToCartesianDirection (point : ℚ × ℚ) (bearing : ℚ) (E : EllipsoidModel ℚ) : ℚ × ℚ × ℚ :=
  let destPoint := calculateDestination point bearing 1000 E
  let startCart := latLonToCartesian point.2 point.1 E
  let endCart := latLonToCartesian destPoint.2 destPoint.1 E
  E.normalize (endCart.1 - startCart.1, endCart.2.1 - startCart.2.1, endCart.2.2 - startCart.2.2)

/-- Scalar projection of a point onto a direction (`part_001`
lines 190-212). -/
def projectPointOntoDirection (center point : ℚ × ℚ) (bearing : ℚ) (E : EllipsoidModel ℚ) : ℚ :=
  let centerCart := latLonToCartesian center.2 center.1 E
  let pointCart := latLonToCartesian point.2 point.1 E
  let dirCart := bearingToCartesianDirection center bearing E
  vec3Dot (pointCart.1 - centerCart.1, pointCart.2.1 - centerCart.2.1, pointCart.2.2 - centerCart.2.2) dirCart

/-- Width of a bounding box along a bearing (`part_001` lines 155-185):
spread of the scalar projections of the four corners. -/
def calculateBoxWidthInDirection (box : BBox ℚ) (bearing : ℚ) (E : EllipsoidModel ℚ) : ℚ :=
  let center := ((box.minLon + box.maxLon) / 2, (box.minLat + box.maxLat) / 2)
  let corners := [(box.minLon, box.minLat), (box.maxLon, box.minLat),
                  (box.maxLon, box.maxLat), (box.minLon, box.maxLat)]
  let dists := corners.map (fun corner => projectPointOntoDirection center corner bearing E)
  maxList dists - minList dists

/-- Start point of the sweep (`part_001` lines 233-240). -/
def calculateStartPoint (center : ℚ × ℚ) (bearing distance : ℚ) (E : EllipsoidModel ℚ) : ℚ × ℚ :=
  calculateDestination center bearing distance E

/-- All intersections of a line with a polygon (`part_001` lines 377-427):
every listed consecutive edge, then the closing edge from the last point
back to the first whenever the polygon is not already closed, sorted by
geodesic distance from the line start. -/
def findPolygonIntersections (lineStart lineEnd : ℚ × ℚ) (polygon : List (ℚ × ℚ)) (E : EllipsoidModel ℚ) : List (ℚ × ℚ) :=
  let edgeHits := (polygon.zip polygon.tail).filterMap
    (fun e => findIntersection lineStart lineEnd e.1 e.2)
  let closingHits :=
    if polygon.headD (0, 0) ≠ polygon.getLastD (0, 0) then
      match findIntersection lineStart lineEnd (polygon.getLastD (0, 0)) (polygon.headD (0, 0)) with
      | some q => [q]
      | none => []
    else []
  stableSort (fun a b => decide (calculateDistance lineStart a E ≤ calculateDistance lineStart b E))
    (edgeHits ++ closingHits)

/-- Pairing and offsetting of the intersections of one line
(`part_001` lines 72-94): consecutive pairs, first point pushed backward
along the bearing by the offset and second point pushed forward. -/
def geoPairSegments (E : EllipsoidModel ℚ) (bearing offset : ℚ) (intersections : List (ℚ × ℚ)) : List ((ℚ × ℚ) × (ℚ × ℚ)) :=
  if 2 ≤ intersections.length then
    (pairUp intersections).map (fun pr =>
      (calculateDestination pr.1 (jsMod (bearing + 180) 360) offset E,
       calculateDestination pr.2 bearing offset E))
  else []

/-- The geodesic variant `createParallelHatching` (`part_001` lines 12-98):
`||` defaults, extended bounding box, perpendicular sweep sized by
`ceil(width / step) + 1`, per-line polygon intersection and pairing. -/
def createParallelHatchingGeo (E : EllipsoidModel ℚ) (o : GeoOptions ℚ) : List ((ℚ × ℚ) × (ℚ × ℚ)) :=
  let polygonCoordinates := o.polygonCoordinates
  let step := jsOr o.step 100
  let bearing := jsOr o.bearing 0
  let offset := jsOr o.offset 50
  let boundingBox := findBoundingBox polygonCoordinates
  let extendedBox := extendBoundingBox boundingBox E (offset * 2)
  let perpendicularBearing := jsMod (bearing + 90) 360
  let boxCenter := ((extendedBox.minLon + extendedBox.maxLon) / 2, (extendedBox.minLat + extendedBox.maxLat) / 2)
  let cornerPoint := (extendedBox.minLon, extendedBox.minLat)
  let diagonalDistance := calculateDistance boxCenter cornerPoint E * 2
  let width := calculateBoxWidthInDirection extendedBox perpendicularBearing E
  let numLines := (⌈width / step⌉ + 1).toNat
  let startPoint := calculateStartPoint boxCenter perpendicularBearing (width / 2) E
  (List.range numLines).flatMap (fun i =>
    let linePos := calculateDestination startPoint (jsMod (perpendicularBearing + 180) 360) ((i : ℚ) * step) E
    let lineStart := calculateDestination linePos (jsMod (bearing + 180) 360) diagonalDistance E
    let lineEnd := calculateDestination linePos bearing diagonalDistance E
    let intersections := findPolygonIntersections lineStart lineEnd polygonCoordinates E
    geoPairSegments E bearing offset intersections)

/-- Concrete collaborator model used for closed evaluations of the geodesic
variant: one degree per meter, cardinal bearings move axis-parallel, taxicab
distance, cartesian embedding in the plane.  The model satisfies the two
capabilities the specification requires of the collaborator. -/
def flatE : EllipsoidModel ℚ where
  getDestination := fun p bearing d =>
    if bearing = 0 then (p.1, p.2 + d)
    else if bearing = 90 then (p.1 + d, p.2)
    else if bearing = 180 then (p.1, p.2 - d)
    else if bearing = 270 then (p.1 - d, p.2)
    else p
  getGeodesicDistance := fun p q => |q.1 - p.1| + |q.2 - p.2|
  lonLatToCartesian := fun p => (p.1, p.2, 0)
  normalize := fun v => if 0 < v.1 ∧ v.2.1 = 0 ∧ v.2.2 = 0 then (1, 0, 0) else v

/-- A three-point ring (an open triangle), below the four-point minimum. -/
def triPts : List (ℚ × ℚ) := [(0, 0), (4, 0), (2, 4)]

/-- A four-point open ring in the rotated plane: the closing edge from
`(1, 0)` back to `(0, 0)` is not listed. -/
def openSquarePts : List (ℚ × ℚ) := [(0, 0), (0, 1), (1, 1), (1, 0)]

/-- A closed four-vertex wedge in the rotated plane, tall at the left and
tapering to a point at the right. -/
def wedgePts : List (ℚ × ℚ) := [(0, -10), (0, 10), (10, 0), (0, -10)]

/-- A closed diamond in the rotated plane. -/
def diamondPts : List (ℚ × ℚ) := [(0, 0), (2, 10), (4, 0), (2, -10), (0, 0)]

/-! Helper lemmas about the embedded operations. -/

theorem pairUp_length {β : Type} : ∀ l : List β, (pairUp l).length = l.length / 2
  | [] => by simp [pairUp]
  | [_] => by simp [pairUp]
  | a :: b :: t => by
    rw [pairUp, List.length_cons, pairUp_length t]
    simp only [List.length_cons]
    omega

theorem getD_cons_cons {β : Type} (a b : β) (t : List β) (n : ℕ) (d : β) :
    (a :: b :: t).getD (n + 2) d = t.getD n d := by
  simp [List.getD_cons_succ]

theorem pairUp_eq_spec {β : Type} (d : β) : ∀ l : List β,
    pairUp l = (List.range (l.length / 2)).map (fun k => (l.getD (2 * k) d, l.getD (2 * k + 1) d))
  | [] => by simp [pairUp]
  | [_] => by simp [pairUp]
  | a :: b :: t => by
    have ih := pairUp_eq_spec d t
    have hlen : (a :: b :: t).length / 2 = t.length / 2 + 1 := by
      simp only [List.length_cons]
      omega
    rw [pairUp, ih, hlen, List.range_succ_eq_map, List.map_cons, List.map_map]
    refine congrArg₂ List.cons (by simp) ?_
    refine List.map_congr_left ?_
    intro i _
    have h2 : 2 * Nat.succ i = 2 * i + 2 := by omega
    have h3 : 2 * Nat.succ i + 1 = (2 * i + 1) + 2 := by omega
    simp only [Function.comp_apply, h2, h3, getD_cons_cons]

theorem length_insertSorted {β : Type} (le : β → β → Bool) (a : β) :
    ∀ l : List β, (insertSorted le a l).length = l.length + 1
  | [] => rfl
  | b :: t => by
    rw [insertSorted]
    by_cases h : le a b
    · simp [h]
    · simp only [h, Bool.false_eq_true, if_false, List.length_cons, length_insertSorted le a t]

theorem length_stableSort {β : Type} (le : β → β → Bool) :
    ∀ l : List β, (stableSort le l).length = l.length
  | [] => rfl
  | a :: t => by
    rw [stableSort, length_insertSorted, length_stableSort le t, List.length_cons]

theorem mem_insertSorted {β : Type} (le : β → β → Bool) (a x : β) :
    ∀ l : List β, x ∈ insertSorted le a l ↔ x = a ∨ x ∈ l
  | [] => by simp [insertSorted]
  | b :: t => by
    rw [insertSorted]
    by_cases h : le a b
    · simp [h]
    · simp only [h, Bool.false_eq_true, if_false, List.mem_cons, mem_insertSorted le a x t]
      tauto

theorem mem_stableSort {β : Type} (le : β → β → Bool) (x : β) :
    ∀ l : List β, x ∈ stableSort le l ↔ x ∈ l
  | [] => Iff.rfl
  | a :: t => by
    rw [stableSort, mem_insertSorted, mem_stableSort le x t, List.mem_cons]

theorem foldl_min_le (l : List α) : ∀ a : α, l.foldl min a ≤ a := by
  induction l with
  | nil => intro a; exact le_refl a
  | cons b t ih =>
    intro a
    calc (b :: t).foldl min a = t.foldl min (min a b) := rfl
    _ ≤ min a b := ih (min a b)
    _ ≤ a := min_le_left a b

theorem le_foldl_max (l : List α) : ∀ a : α, a ≤ l.foldl max a := by
  induction l with
  | nil => intro a; exact le_refl a
  | cons b t ih =>
    intro a
    calc a ≤ max a b := le_max_left a b
    _ ≤ t.foldl max (max a b) := ih (max a b)
    _ = (b :: t).foldl max a := rfl

theorem minList_le_maxList (l : List α) (h : l ≠ []) : minList l ≤ maxList l := by
  match l, h with
  | a :: t, _ =>
    calc minList (a :: t) = t.foldl min a := rfl
    _ ≤ a := foldl_min_le t a
    _ ≤ t.foldl max a := le_foldl_max t a
    _ = maxList (a :: t) := rfl

theorem scanCount_succ (lineSpacing rightBoundary p : α) (hs : 0 < lineSpacing)
    (hp : p ≤ rightBoundary) :
    scanCount lineSpacing rightBoundary p
      = scanCount lineSpacing rightBoundary (p + lineSpacing) + 1 := by
  by_cases hq : p + lineSpacing ≤ rightBoundary
  · have h1 : (rightBoundary - (p + lineSpacing)) / lineSpacing
        = (rightBoundary - p) / lineSpacing - 1 := by
      field_simp
      ring
    have h2 : (0 : α) ≤ (rightBoundary - (p + lineSpacing)) / lineSpacing :=
      div_nonneg (by linarith) hs.le
    have h3 : 0 ≤ ⌊(rightBoundary - p) / lineSpacing⌋ - 1 := by
      rw [← Int.floor_sub_one, ← h1]
      exact Int.floor_nonneg.mpr h2
    rw [scanCount, scanCount, if_pos hp, if_pos hq, h1, Int.floor_sub_one]
    omega
  · have h4 : ⌊(rightBoundary - p) / lineSpacing⌋ = 0 := by
      rw [Int.floor_eq_zero_iff, Set.mem_Ico]
      refine ⟨div_nonneg (by linarith) hs.le, ?_⟩
      rw [div_lt_one hs]
      linarith
    rw [scanCount, scanCount, if_pos hp, if_neg hq, h4]
    rfl

theorem scanLoopF_eq (lineSpacing rightBoundary : α) (hs : 0 < lineSpacing) :
    ∀ (n : ℕ) (p : α), scanCount lineSpacing rightBoundary p ≤ n →
      scanLoopF lineSpacing rightBoundary n p
        = ((List.range (scanCount lineSpacing rightBoundary p)).map
            (fun i : ℕ => p + (i : α) * lineSpacing), true) := by
  intro n
  induction n with
  | zero =>
    intro p hle
    have hz : scanCount lineSpacing rightBoundary p = 0 := Nat.le_zero.mp hle
    have hp : ¬ p ≤ rightBoundary := by
      intro hp
      rw [scanCount, if_pos hp] at hz
      omega
    rw [hz]
    simp [scanLoopF, lt_of_not_le hp]
  | succ n ih =>
    intro p hle
    by_cases hp : p ≤ rightBoundary
    · have key := scanCount_succ lineSpacing rightBoundary p hs hp
      have hle2 : scanCount lineSpacing rightBoundary (p + lineSpacing) ≤ n := by omega
      rw [scanLoopF, if_pos hp, ih _ hle2, key]
      refine congrArg₂ Prod.mk ?_ rfl
      rw [List.range_succ_eq_map, List.map_cons, List.map_map]
      refine congrArg₂ List.cons (by simp) ?_
      refine (List.map_congr_left ?_).symm
      intro i _
      simp only [Function.comp_apply, Nat.succ_eq_add_one]
      push_cast
      ring
    · have hz : scanCount lineSpacing rightBoundary p = 0 := by
        rw [scanCount, if_neg hp]
      rw [scanLoopF, if_neg hp, hz]
      simp

theorem scanPositions_eq (leftBoundary rightBoundary lineSpacing : α) (hs : 0 < lineSpacing) :
    scanPositions leftBoundary rightBoundary lineSpacing
      = (List.range (scanCount lineSpacing rightBoundary leftBoundary)).map
          (fun i : ℕ => leftBoundary + (i : α) * lineSpacing) := by
  have hfuel : scanCount lineSpacing rightBoundary leftBoundary
      ≤ (⌊(rightBoundary - leftBoundary) / lineSpacing⌋).toNat + 1 := by
    rw [scanCount]
    split
    · exact le_refl _
    · omega
  rw [scanPositions, scanLoopF_eq lineSpacing rightBoundary hs _ leftBoundary hfuel]

theorem scanLoopF_stuck (lineSpacing rightBoundary : α) (hs : lineSpacing ≤ 0) :
    ∀ (n : ℕ) (p : α), p ≤ rightBoundary → (scanLoopF lineSpacing rightBoundary n p).2 = false := by
  intro n
  induction n with
  | zero =>
    intro p hp
    simp [scanLoopF, not_lt.mpr hp]
  | succ n ih =>
    intro p hp
    rw [scanLoopF, if_pos hp]
    exact ih (p + lineSpacing) (by linarith)

theorem unprojectPoint_projectPoint (piA cosAvg cosAngle sinAngle : α) (q : α × α)
    (h1 : cosAngle ^ 2 + sinAngle ^ 2 = 1) (h2 : cosAvg ≠ 0) (h3 : piA ≠ 0) :
    unprojectPoint piA cosAvg cosAngle sinAngle (projectPoint piA cosAvg cosAngle sinAngle q) = q := by
  obtain ⟨lon, lat⟩ := q
  simp only [projectPoint, unprojectPoint]
  have h6 : (6371000 : α) ≠ 0 := by norm_num
  have hX : cosAngle * (cosAngle * (6371000 * (lon * piA / 180) * cosAvg)
        + sinAngle * (6371000 * (lat * piA / 180)))
      - sinAngle * (-sinAngle * (6371000 * (lon * piA / 180) * cosAvg)
        + cosAngle * (6371000 * (lat * piA / 180)))
      = 6371000 * (lon * piA / 180) * cosAvg := by
    linear_combination (6371000 * (lon * piA / 180) * cosAvg) * h1
  have hY : sinAngle * (cosAngle * (6371000 * (lon * piA / 180) * cosAvg)
        + sinAngle * (6371000 * (lat * piA / 180)))
      + cosAngle * (-sinAngle * (6371000 * (lon * piA / 180) * cosAvg)
        + cosAngle * (6371000 * (lat * piA / 180)))
      = 6371000 * (lat * piA / 180) := by
    linear_combination (6371000 * (lat * piA / 180)) * h1
  rw [hX, hY]
  refine Prod.ext ?_ ?_
  · field_simp
    ring
  · field_simp
    ring

theorem foldl_add_snd (ring : List (α × α)) :
    ring.foldl (fun sum point => sum + point.2) 0 = (ring.map Prod.snd).sum := by
  rw [List.sum_eq_foldl, List.foldl_map]

theorem geo_step_some_zero (E : EllipsoidModel ℚ) (c : List (ℚ × ℚ)) (b off : Option ℚ) :
    createParallelHatchingGeo E ⟨c, some 0, b, off⟩ = createParallelHatchingGeo E ⟨c, none, b, off⟩ := by
  simp only [createParallelHatchingGeo]
  norm_num [jsOr]

theorem geo_offset_some_zero (E : EllipsoidModel ℚ) (c : List (ℚ × ℚ)) (st b : Option ℚ) :
    createParallelHatchingGeo E ⟨c, st, b, some 0⟩ = createParallelHatchingGeo E ⟨c, st, b, none⟩ := by
  simp only [createParallelHatchingGeo]
  norm_num [jsOr]

theorem isPointOnLineSegment_iff (point a b : ℚ × ℚ) (tol : ℚ) :
    isPointOnLineSegment point a b tol = true ↔
      |(b.1 - a.1) * (point.2 - a.2) - (b.2 - a.2) * (point.1 - a.1)| ≤ tol
      ∧ 0 ≤ (b.1 - a.1) * (point.1 - a.1) + (b.2 - a.2) * (point.2 - a.2)
      ∧ (b.1 - a.1) * (point.1 - a.1) + (b.2 - a.2) * (point.2 - a.2)
        ≤ (b.1 - a.1) * (b.1 - a.1) + (b.2 - a.2) * (b.2 - a.2) := by
  simp only [isPointOnLineSegment]
  by_cases hc : |(b.1 - a.1) * (point.2 - a.2) - (b.2 - a.2) * (point.1 - a.1)| > tol
  · rw [if_pos hc]
    simp only [Bool.false_eq_true, false_iff, not_and]
    intro h1
    exact absurd hc (not_lt.mpr h1)
  · rw [if_neg hc, not_lt] at *
    simp only [decide_eq_true_eq]
    exact ⟨fun h => ⟨hc, h⟩, fun h => h.2⟩

theorem findIntersection_eq_none_iff (p1 p2 p3 p4 : ℚ × ℚ) :
    findIntersection p1 p2 p3 p4 = none ↔
      |(p2.2 - p1.2) * (p3.1 - p4.1) - (p4.2 - p3.2) * (p1.1 - p2.1)| < 1 / 10 ^ 10
      ∨ isPointOnLineSegment
          (((p3.1 - p4.1) * ((p2.2 - p1.2) * p1.1 + (p1.1 - p2.1) * p1.2)
              - (p1.1 - p2.1) * ((p4.2 - p3.2) * p3.1 + (p3.1 - p4.1) * p3.2))
            / ((p2.2 - p1.2) * (p3.1 - p4.1) - (p4.2 - p3.2) * (p1.1 - p2.1)),
           ((p2.2 - p1.2) * ((p4.2 - p3.2) * p3.1 + (p3.1 - p4.1) * p3.2)
              - (p4.2 - p3.2) * ((p2.2 - p1.2) * p1.1 + (p1.1 - p2.1) * p1.2))
            / ((p2.2 - p1.2) * (p3.1 - p4.1) - (p4.2 - p3.2) * (p1.1 - p2.1)))
          p1 p2 (1 / 10 ^ 10) = false
      ∨ isPointOnLineSegment
          (((p3.1 - p4.1) * ((p2.2 - p1.2) * p1.1 + (p1.1 - p2.1) * p1.2)
              - (p1.1 - p2.1) * ((p4.2 - p3.2) * p3.1 + (p3.1 - p4.1) * p3.2))
            / ((p2.2 - p1.2) * (p3.1 - p4.1) - (p4.2 - p3.2) * (p1.1 - p2.1)),
           ((p2.2 - p1.2) * ((p4.2 - p3.2) * p3.1 + (p3.1 - p4.1) * p3.2)
              - (p4.2 - p3.2) * ((p2.2 - p1.2) * p1.1 + (p1.1 - p2.1) * p1.2))
            / ((p2.2 - p1.2) * (p3.1 - p4.1) - (p4.2 - p3.2) * (p1.1 - p2.1)))
          p3 p4 (1 / 10 ^ 10) = false := by
  simp only [findIntersection]
  by_cases hd : |(p2.2 - p1.2) * (p3.1 - p4.1) - (p4.2 - p3.2) * (p1.1 - p2.1)| < 1 / 10 ^ 10
  · rw [if_pos hd]
    tauto
  · rw [if_neg hd]
    cases hB1 : isPointOnLineSegment
        (((p3.1 - p4.1) * ((p2.2 - p1.2) * p1.1 + (p1.1 - p2.1) * p1.2)
            - (p1.1 - p2.1) * ((p4.2 - p3.2) * p3.1 + (p3.1 - p4.1) * p3.2))
          / ((p2.2 - p1.2) * (p3.1 - p4.1) - (p4.2 - p3.2) * (p1.1 - p2.1)),
         ((p2.2 - p1.2) * ((p4.2 - p3.2) * p3.1 + (p3.1 - p4.1) * p3.2)
            - (p4.2 - p3.2) * ((p2.2 - p1.2) * p1.1 + (p1.1 - p2.1) * p1.2))
          / ((p2.2 - p1.2) * (p3.1 - p4.1) - (p4.2 - p3.2) * (p1.1 - p2.1)))
        p1 p2 (1 / 10 ^ 10) with
    | false =>
      simp only [hB1, Bool.false_and, Bool.false_eq_true, if_false]
      tauto
    | true =>
      cases hB2 : isPointOnLineSegment
          (((p3.1 - p4.1) * ((p2.2 - p1.2) * p1.1 + (p1.1 - p2.1) * p1.2)
              - (p1.1 - p2.1) * ((p4.2 - p3.2) * p3.1 + (p3.1 - p4.1) * p3.2))
            / ((p2.2 - p1.2) * (p3.1 - p4.1) - (p4.2 - p3.2) * (p1.1 - p2.1)),
           ((p2.2 - p1.2) * ((p4.2 - p3.2) * p3.1 + (p3.1 - p4.1) * p3.2)
              - (p4.2 - p3.2) * ((p2.2 - p1.2) * p1.1 + (p1.1 - p2.1) * p1.2))
            / ((p2.2 - p1.2) * (p3.1 - p4.1) - (p4.2 - p3.2) * (p1.1 - p2.1)))
          p3 p4 (1 / 10 ^ 10) with
      | false =>
        simp only [hB1, hB2, Bool.and_false, Bool.false_eq_true, if_false]
        tauto
      | true =>
        simp only [hB1, hB2, Bool.and_self, eq_self_iff_true, if_true]
        constructor
        · intro h
          exact (Option.some_ne_none _ h).elim
        · rintro (h | h | h)
          · exact absurd h hd
          · exact Bool.noConfusion h
          · exact Bool.noConfusion h

/-! Claim theorems. -/

/-- Claim C1, counterexample.  For the four-point ring whose rotated points
are `openSquarePts`, offset `0` and spacing `2/5`, the sweep of the planar
variant visits 3 scan-line positions, while the formula of the claim,
`ceil((max - min) / spacing) + 1`, gives 4. -/
theorem C1_counterexample :
    (scanPositions (leftBoundaryOf openSquarePts 0) (rightBoundaryOf openSquarePts 0) (2/5 : ℚ)).length = 3
    ∧ (⌈(rightBoundaryOf openSquarePts 0 - leftBoundaryOf openSquarePts 0) / (2/5 : ℚ)⌉).toNat + 1 = 4
    ∧ openSquarePts.length = 4 := by
  have hl : leftBoundaryOf openSquarePts (0 : ℚ) = 0 := by
    norm_num [leftBoundaryOf, openSquarePts, minList]
  have hr : rightBoundaryOf openSquarePts (0 : ℚ) = 1 := by
    norm_num [rightBoundaryOf, openSquarePts, maxList]
  refine ⟨?_, ?_, by norm_num [openSquarePts]⟩
  · rw [hl, hr, scanPositions_eq 0 1 (2/5) (by norm_num), List.length_map, List.length_range,
      scanCount, if_pos (by norm_num : (0:ℚ) ≤ 1),
      show ⌊((1:ℚ) - 0) / (2/5)⌋ = 2 by norm_num]
    decide
  · rw [hl, hr, show ⌈((1:ℚ) - 0) / (2/5)⌉ = 3 by rw [Int.ceil_eq_iff]; norm_num]
    decide

/-- Claim C1, amended.  For every nonempty list of rotated points, every
positive spacing and every non-negative offset, the planar sweep visits
exactly the positions `min + i * spacing` for
`i < floor((max - min) / spacing) + 1` (so it starts at `min`, steps by
`spacing`, and stays at most `max`), and the number of scan lines is
`floor((max - min) / spacing) + 1`, not `ceil(...) + 1`. -/
theorem C1_amended (pts : List (ℚ × ℚ)) (s off : ℚ) (hpts : pts ≠ []) (hs : 0 < s)
    (hoff : 0 ≤ off) :
    scanPositions (leftBoundaryOf pts off) (rightBoundaryOf pts off) s
      = (List.range ((⌊(rightBoundaryOf pts off - leftBoundaryOf pts off) / s⌋).toNat + 1)).map
          (fun i : ℕ => leftBoundaryOf pts off + (i : ℚ) * s)
    ∧ (scanPositions (leftBoundaryOf pts off) (rightBoundaryOf pts off) s).length
        = (⌊(rightBoundaryOf pts off - leftBoundaryOf pts off) / s⌋).toNat + 1 := by
  have hxs : pts.map Prod.fst ≠ [] := by
    intro hcon
    exact hpts (List.map_eq_nil_iff.mp hcon)
  have hminmax := minList_le_maxList (pts.map Prod.fst) hxs
  have hle : leftBoundaryOf pts off ≤ rightBoundaryOf pts off := by
    rw [leftBoundaryOf, rightBoundaryOf]
    linarith
  have hcnt : scanCount s (rightBoundaryOf pts off) (leftBoundaryOf pts off)
      = (⌊(rightBoundaryOf pts off - leftBoundaryOf pts off) / s⌋).toNat + 1 := by
    rw [scanCount, if_pos hle]
  refine ⟨?_, ?_⟩
  · rw [scanPositions_eq _ _ _ hs, hcnt]
  · rw [scanPositions_eq _ _ _ hs, hcnt, List.length_map, List.length_range]

/-- Claim C1, witness for the amended theorem at `openSquarePts`,
spacing `1/2`, offset `1`. -/
theorem C1_amended_witness :
    openSquarePts ≠ [] ∧ (0 : ℚ) < 1/2 ∧ (0 : ℚ) ≤ 1
    ∧ scanPositions (leftBoundaryOf openSquarePts 1) (rightBoundaryOf openSquarePts 1) (1/2 : ℚ)
        = (List.range ((⌊(rightBoundaryOf openSquarePts 1 - leftBoundaryOf openSquarePts 1) / (1/2 : ℚ)⌋).toNat + 1)).map
            (fun i : ℕ => leftBoundaryOf openSquarePts 1 + (i : ℚ) * (1/2)) :=
  ⟨by simp [openSquarePts], by norm_num, by norm_num,
    (C1_amended openSquarePts (1/2) 1 (by simp [openSquarePts]) (by norm_num) (by norm_num)).1⟩

/-- Claim C2, counterexample.  The geodesic variant has no ring-size guard:
on the three-point ring `triPts` (with the flat collaborator model, step 4,
bearing 0, offset 1) it emits one segment instead of an empty sequence. -/
theorem C2_counterexample :
    triPts.length < 4
    ∧ createParallelHatchingGeo flatE ⟨triPts, some 4, some 0, some 1⟩ = [((2, -1), (2, 5))]
    ∧ createParallelHatchingGeo flatE ⟨triPts, some 4, some 0, some 1⟩ ≠ [] := by
  have key : createParallelHatchingGeo flatE ⟨triPts, some 4, some 0, some 1⟩
      = [((2, -1), (2, 5))] := by
    have hstep : jsOr (some (4:ℚ)) 100 = 4 := by norm_num [jsOr]
    have hbear : jsOr (some (0:ℚ)) 0 = 0 := by norm_num [jsOr]
    have hoff : jsOr (some (1:ℚ)) 50 = 1 := by norm_num [jsOr]
    have hbox : findBoundingBox triPts = ⟨0, 4, 0, 4⟩ := by
      norm_num [findBoundingBox, triPts, minList, maxList]
    have h12 : (1:ℚ) * 2 = 2 := by norm_num
    have hext : extendBoundingBox ⟨0, 4, 0, 4⟩ flatE 2 = ⟨-2, 6, -2, 6⟩ := by
      norm_num [extendBoundingBox, calculateDestination, flatE, BBox.mk.injEq]
    have hperp : jsMod ((0:ℚ) + 90) 360 = 90 := by norm_num [jsMod, jsTrunc]
    have hc : ((-2 : ℚ) + 6) / 2 = 2 := by norm_num
    have hwidth : calculateBoxWidthInDirection ⟨-2, 6, -2, 6⟩ 90 flatE = 8 := by
      norm_num [calculateBoxWidthInDirection, projectPointOntoDirection, latLonToCartesian,
        bearingToCartesianDirection, calculateDestination, vec3Dot, flatE, minList, maxList]
    have hdist : calculateDistance ((2:ℚ), (2:ℚ)) (-2, -2) flatE = 8 := by
      norm_num [calculateDistance, flatE]
    have h82 : (8:ℚ) * 2 = 16 := by norm_num
    have h84 : (8:ℚ) / 2 = 4 := by norm_num
    have hnum : (⌈(8:ℚ) / 4⌉ + 1).toNat = 3 := by
      rw [show ⌈(8:ℚ) / 4⌉ = 2 by norm_num]
      decide
    have hstartpt : calculateStartPoint ((2:ℚ), (2:ℚ)) 90 4 flatE = (6, 2) := by
      norm_num [calculateStartPoint, calculateDestination, flatE]
    have hr3 : List.range 3 = [0, 1, 2] := by decide
    have hmod270 : jsMod ((90:ℚ) + 180) 360 = 270 := by norm_num [jsMod, jsTrunc]
    have hmod180 : jsMod ((0:ℚ) + 180) 360 = 180 := by norm_num [jsMod, jsTrunc]
    simp only [createParallelHatchingGeo, hstep, hbear, hoff, hbox, h12, hext, hperp, hc,
      hwidth, hdist, h82, h84, hnum, hstartpt, hr3, hmod270, hmod180,
      List.flatMap_cons, List.flatMap_nil, List.append_nil,
      Nat.cast_zero, Nat.cast_one, Nat.cast_ofNat]
    have hl0 : calculateDestination ((6:ℚ), (2:ℚ)) 270 (0 * 4) flatE = (6, 2) := by
      norm_num [calculateDestination, flatE]
    have hl1 : calculateDestination ((6:ℚ), (2:ℚ)) 270 (1 * 4) flatE = (2, 2) := by
      norm_num [calculateDestination, flatE]
    have hl2 : calculateDestination ((6:ℚ), (2:ℚ)) 270 (2 * 4) flatE = (-2, 2) := by
      norm_num [calculateDestination, flatE]
    have hs0 : calculateDestination ((6:ℚ), (2:ℚ)) 180 16 flatE = (6, -14) := by
      norm_num [calculateDestination, flatE]
    have he0 : calculateDestination ((6:ℚ), (2:ℚ)) 0 16 flatE = (6, 18) := by
      norm_num [calculateDestination, flatE]
    have hs1 : calculateDestination ((2:ℚ), (2:ℚ)) 180 16 flatE = (2, -14) := by
      norm_num [calculateDestination, flatE]
    have he1 : calculateDestination ((2:ℚ), (2:ℚ)) 0 16 flatE = (2, 18) := by
      norm_num [calculateDestination, flatE]
    have hs2 : calculateDestination ((-2:ℚ), (2:ℚ)) 180 16 flatE = (-2, -14) := by
      norm_num [calculateDestination, flatE]
    have he2 : calculateDestination ((-2:ℚ), (2:ℚ)) 0 16 flatE = (-2, 18) := by
      norm_num [calculateDestination, flatE]
    simp only [hl0, hl1, hl2, hs0, he0, hs1, he1, hs2, he2]
    have hline0 : findPolygonIntersections (6, -14) (6, 18) triPts flatE = [] := by
      norm_num [findPolygonIntersections, findIntersection, isPointOnLineSegment, triPts,
        stableSort, insertSorted, calculateDistance, flatE, List.zip,
        List.filterMap_cons, Prod.mk.injEq]
    have hline1 : findPolygonIntersections (2, -14) (2, 18) triPts flatE
        = [(2, 0), (2, 4), (2, 4)] := by
      norm_num [findPolygonIntersections, findIntersection, isPointOnLineSegment, triPts,
        stableSort, insertSorted, calculateDistance, flatE, List.zip,
        List.filterMap_cons, Prod.mk.injEq]
    have hline2 : findPolygonIntersections (-2, -14) (-2, 18) triPts flatE = [] := by
      norm_num [findPolygonIntersections, findIntersection, isPointOnLineSegment, triPts,
        stableSort, insertSorted, calculateDistance, flatE, List.zip,
        List.filterMap_cons, Prod.mk.injEq]
    rw [hline0, hline1, hline2]
    have hemp : geoPairSegments flatE 0 1 [] = [] := by norm_num [geoPairSegments]
    have hpair : geoPairSegments flatE 0 1 [(2, 0), (2, 4), (2, 4)] = [((2, -1), (2, 5))] := by
      norm_num [geoPairSegments, pairUp, calculateDestination, flatE, jsMod, jsTrunc,
        Prod.mk.injEq]
    rw [hemp, hpair]
    simp
  exact ⟨by norm_num [triPts], key, by rw [key]; simp⟩

/-- Claim C2, amended.  The planar variant returns the empty sequence for
every input whose selected ring has fewer than 4 points, for every model of
the Math collaborator; the geodesic variant has no such guard (see the
counterexample). -/
theorem C2_amended (M : MathLib α) (o : PlanarOptions α)
    (h : (o.polygonCoordinates.headD []).length < 4) :
    createParallelHatchingPlanar M o = [] := by
  simp only [createParallelHatchingPlanar]
  rw [if_pos h]

/-- Claim C2, witness for the amended theorem: a three-point ring given to
the planar variant with all parameters omitted. -/
theorem C2_amended_witness :
    (((⟨[triPts], none, none, none⟩ : PlanarOptions ℚ).polygonCoordinates.headD []).length < 4)
    ∧ createParallelHatchingPlanar (⟨3, id, id⟩ : MathLib ℚ) ⟨[triPts], none, none, none⟩ = [] :=
  ⟨by simp [triPts], C2_amended (⟨3, id, id⟩ : MathLib ℚ) ⟨[triPts], none, none, none⟩
    (by simp [triPts])⟩

/-- Claim C3, counterexample.  No configuration error exists for
non-positive spacing: the geodesic variant silently replaces step `0` by the
default `100` (the `||` default makes an explicit `0` behave exactly like an
omitted step), and the planar sweep loop runs with spacing `0`, revisiting
the same position and never exiting within any fuel shown here. -/
theorem C3_counterexample :
    jsOr (some (0:ℚ)) 100 = 100
    ∧ createParallelHatchingGeo flatE ⟨triPts, some 0, some 0, some 1⟩
        = createParallelHatchingGeo flatE ⟨triPts, none, some 0, some 1⟩
    ∧ (scanLoopF (0:ℚ) 1 5 0).1 = [0, 0, 0, 0, 0]
    ∧ (scanLoopF (0:ℚ) 1 5 0).2 = false :=
  ⟨by norm_num [jsOr], geo_step_some_zero flatE triPts (some 0) (some 1),
    by norm_num [scanLoopF], by norm_num [scanLoopF]⟩

/-- Claim C3, amended.  Neither variant raises an error for non-positive
spacing: with spacing at most `0` and a nonempty sweep range the planar loop
never exits (its exit flag is `false` for every fuel), and the geodesic
variant silently replaces an explicit step `0` by the default `100`. -/
theorem C3_amended (s mn mx : ℚ) (hs : s ≤ 0) (hmn : mn ≤ mx) :
    (∀ n : ℕ, (scanLoopF s mx n mn).2 = false) ∧ jsOr (some (0:ℚ)) 100 = 100 :=
  ⟨fun n => scanLoopF_stuck s mx hs n mn hmn, by norm_num [jsOr]⟩

/-- Claim C3, witness for the amended theorem at spacing `0` on the range
`[0, 1]`, fuel `7`. -/
theorem C3_amended_witness :
    (0:ℚ) ≤ 0 ∧ (0:ℚ) ≤ 1 ∧ (scanLoopF (0:ℚ) 1 7 0).2 = false :=
  ⟨le_refl 0, by norm_num, (C3_amended 0 0 1 (le_refl 0) (by norm_num)).1 7⟩

/-- Claim C4, counterexample.  The planar variant never tests the implicit
closing edge: on the open ring `openSquarePts` (first point `(0,0)`, last
point `(1,0)`) the scan line at `1/2` crosses the closing edge at `y = 0`,
but the recorded hits are exactly `[1]` (top edge only); the lone hit count
then stays odd on every scan line and the whole sweep emits nothing. -/
theorem C4_counterexample :
    intersectionsAt openSquarePts (1/2 : ℚ) = [1]
    ∧ (0 : ℚ) ∉ intersectionsAt openSquarePts (1/2 : ℚ)
    ∧ sweepEmit openSquarePts (1/2 : ℚ) 0 = [] := by
  have h0 : intersectionsAt openSquarePts (0 : ℚ) = [1] := by
    norm_num [intersectionsAt, openSquarePts, List.zip, List.filterMap_cons]
  have h12 : intersectionsAt openSquarePts (1/2 : ℚ) = [1] := by
    norm_num [intersectionsAt, openSquarePts, List.zip, List.filterMap_cons]
  have h1 : intersectionsAt openSquarePts (1 : ℚ) = [1] := by
    norm_num [intersectionsAt, openSquarePts, List.zip, List.filterMap_cons]
  refine ⟨h12, by rw [h12]; norm_num, ?_⟩
  have hl : leftBoundaryOf openSquarePts (0 : ℚ) = 0 := by
    norm_num [leftBoundaryOf, openSquarePts, minList]
  have hr : rightBoundaryOf openSquarePts (0 : ℚ) = 1 := by
    norm_num [rightBoundaryOf, openSquarePts, maxList]
  have hsp : scanPositions (0 : ℚ) 1 (1/2) = [0, 1/2, 1] := by
    rw [scanPositions_eq 0 1 (1/2) (by norm_num), scanCount, if_pos (by norm_num : (0:ℚ) ≤ 1),
      show ⌊((1:ℚ) - 0) / (1/2)⌋ = 2 by norm_num,
      show (2:ℤ).toNat + 1 = 3 by decide,
      show List.range 3 = [0, 1, 2] by decide]
    norm_num
  have hseg : ∀ x : ℚ, intersectionsAt openSquarePts x = [1] →
      lineSegments openSquarePts 0 x = [] := by
    intro x hx
    rw [lineSegments, hx]
    norm_num [stableSort, insertSorted, pairUp]
  rw [sweepEmit, hl, hr, hsp]
  simp only [List.flatMap_cons, List.flatMap_nil, List.append_nil,
    hseg 0 h0, hseg (1/2) h12, hseg 1 h1]

/-- Claim C4, amended.  Only the geodesic variant tests the implicit closing
edge: whenever the polygon is not already closed and the scan segment meets
the closing edge from the last point back to the first,
`findPolygonIntersections` records that hit like any other (it is a member
of the returned, distance-sorted list), for every collaborator model.  The
planar variant iterates only the explicitly listed consecutive edges. -/
theorem C4_amended (E : EllipsoidModel ℚ) (lineStart lineEnd : ℚ × ℚ)
    (polygon : List (ℚ × ℚ)) (p : ℚ × ℚ)
    (hopen : polygon.headD (0, 0) ≠ polygon.getLastD (0, 0))
    (hhit : findIntersection lineStart lineEnd (polygon.getLastD (0, 0)) (polygon.headD (0, 0))
        = some p) :
    p ∈ findPolygonIntersections lineStart lineEnd polygon E := by
  simp only [findPolygonIntersections]
  rw [mem_stableSort, List.mem_append]
  right
  rw [if_pos hopen, hhit]
  simp

/-- Claim C4, witness for the amended theorem: on the open triangle
`triPts` the scan segment from `(2, -14)` to `(2, 18)` meets the closing
edge at `(2, 4)`, and `(2, 4)` is recorded. -/
theorem C4_amended_witness :
    triPts.headD (0, 0) ≠ triPts.getLastD (0, 0)
    ∧ findIntersection (2, -14) (2, 18) (triPts.getLastD (0, 0)) (triPts.headD (0, 0))
        = some (2, 4)
    ∧ (2, 4) ∈ findPolygonIntersections (2, -14) (2, 18) triPts flatE := by
  have h1 : triPts.headD (0, 0) ≠ triPts.getLastD (0, 0) := by
    norm_num [triPts, List.getLastD, List.getLast, Prod.ext_iff]
  have h2 : findIntersection (2, -14) (2, 18) (triPts.getLastD (0, 0)) (triPts.headD (0, 0))
      = some (2, 4) := by
    norm_num [triPts, List.getLastD, List.getLast, findIntersection, isPointOnLineSegment,
      Prod.mk.injEq]
  exact ⟨h1, h2, C4_amended flatE (2, -14) (2, 18) triPts (2, 4) h1 h2⟩

/-- Claim C5, confirmed.  For every geographic point in the valid ranges,
every bearing, and every projection reference latitude strictly inside
`(-90, 90)` (so that the shared cosine is nonzero), applying the forward
planar transform of the source and then its inverse returns the original
point to within `1e-9` degrees in each coordinate; the proof shows the
round trip is exact. -/
theorem C5_roundtrip_projection (lon lat originLatitude bearing : ℝ)
    (hlon1 : -180 < lon) (hlon2 : lon ≤ 180) (hlat : |lat| ≤ 90)
    (holat : |originLatitude| < 90) :
    |(unprojectPoint Real.pi (Real.cos (originLatitude * Real.pi / 180))
        (Real.cos (bearing * Real.pi / 180)) (Real.sin (bearing * Real.pi / 180))
        (projectPoint Real.pi (Real.cos (originLatitude * Real.pi / 180))
          (Real.cos (bearing * Real.pi / 180)) (Real.sin (bearing * Real.pi / 180))
          (lon, lat))).1 - lon| ≤ 1 / 10 ^ 9
    ∧ |(unprojectPoint Real.pi (Real.cos (originLatitude * Real.pi / 180))
        (Real.cos (bearing * Real.pi / 180)) (Real.sin (bearing * Real.pi / 180))
        (projectPoint Real.pi (Real.cos (originLatitude * Real.pi / 180))
          (Real.cos (bearing * Real.pi / 180)) (Real.sin (bearing * Real.pi / 180))
          (lon, lat))).2 - lat| ≤ 1 / 10 ^ 9 := by
  have hpi := Real.pi_pos
  obtain ⟨ho1, ho2⟩ := abs_lt.mp holat
  have hcos : Real.cos (originLatitude * Real.pi / 180) ≠ 0 := by
    refine ne_of_gt (Real.cos_pos_of_mem_Ioo ⟨?_, ?_⟩)
    · nlinarith
    · nlinarith
  have h1 : Real.cos (bearing * Real.pi / 180) ^ 2 + Real.sin (bearing * Real.pi / 180) ^ 2 = 1 :=
    Real.cos_sq_add_sin_sq _
  have key := unprojectPoint_projectPoint Real.pi (Real.cos (originLatitude * Real.pi / 180))
    (Real.cos (bearing * Real.pi / 180)) (Real.sin (bearing * Real.pi / 180)) (lon, lat)
    h1 hcos (ne_of_gt hpi)
  rw [key]
  norm_num

/-- Claim C5, witness at the point `(1, 2)`, reference latitude `0`,
bearing `0`. -/
theorem C5_roundtrip_projection_witness :
    (-180 : ℝ) < 1 ∧ (1 : ℝ) ≤ 180 ∧ |(2 : ℝ)| ≤ 90 ∧ |(0 : ℝ)| < 90
    ∧ |(unprojectPoint Real.pi (Real.cos (0 * Real.pi / 180))
        (Real.cos (0 * Real.pi / 180)) (Real.sin (0 * Real.pi / 180))
        (projectPoint Real.pi (Real.cos (0 * Real.pi / 180))
          (Real.cos (0 * Real.pi / 180)) (Real.sin (0 * Real.pi / 180))
          (1, 2))).1 - 1| ≤ 1 / 10 ^ 9 :=
  ⟨by norm_num, by norm_num, by norm_num, by norm_num,
    (C5_roundtrip_projection 1 2 0 0 (by norm_num) (by norm_num) (by norm_num) (by norm_num)).1⟩

/-- Claim C6, confirmed.  The planar projection of the source equals the
projection described by the specification: `originLatitude` is the
arithmetic mean of the ring latitudes, each point maps to
`(R lon_rad cos(originLatitude_rad), R lat_rad)` with `R = 6371000`, and is
then rotated by the bearing with the stated matrix, for every Math
collaborator model, bearing, and ring. -/
theorem C6_projection_formula (M : MathLib α) (lineAngle : α) (ring : List (α × α)) :
    projectedPointsOf M lineAngle ring = specToPlanar M lineAngle ring := by
  simp only [projectedPointsOf, specToPlanar, projectPoint, foldl_add_snd]

/-- Claim C7, confirmed.  Pairing takes the elements at positions `2k` and
`2k + 1` and drops a trailing unpaired element, so exactly `n / 2` segments
are emitted from `n` recorded hits on one scan line, in the planar variant
(`lineSegments` over the sorted hits) and in the geodesic variant
(`geoPairSegments` over the distance-sorted intersections). -/
theorem C7_pairing {β : Type} (d : β) (l : List β) (pts : List (ℚ × ℚ)) (ext x0 : ℚ)
    (E : EllipsoidModel ℚ) (b off : ℚ) (ints : List (ℚ × ℚ)) :
    pairUp l = (List.range (l.length / 2)).map (fun k => (l.getD (2 * k) d, l.getD (2 * k + 1) d))
    ∧ (pairUp l).length = l.length / 2
    ∧ (lineSegments pts ext x0).length = (intersectionsAt pts x0).length / 2
    ∧ (geoPairSegments E b off ints).length = ints.length / 2 := by
  refine ⟨pairUp_eq_spec d l, pairUp_length l, ?_, ?_⟩
  · rw [lineSegments, List.length_map, pairUp_length, length_stableSort]
  · rw [geoPairSegments]
    split
    · rw [List.length_map, pairUp_length]
    · rename_i h
      rw [not_le] at h
      rw [List.length_nil]
      omega

/-- Claim C8, confirmed.  The on-segment test accepts exactly when the
cross product is within the tolerance of zero and the dot product lies in
`[0, squaredLength]`; segment intersection returns `None` exactly when the
absolute determinant of the 2-by-2 general-form system is below `1e-10` or
the solved point fails the on-segment test (at the default tolerance
`1e-10`) for either segment, and otherwise returns the solution of the
system. -/
theorem C8_intersection (point lineStart lineEnd : ℚ × ℚ) (tolerance : ℚ)
    (p1 p2 p3 p4 : ℚ × ℚ) :
    (isPointOnLineSegment point lineStart lineEnd tolerance = true ↔
      |(lineEnd.1 - lineStart.1) * (point.2 - lineStart.2)
          - (lineEnd.2 - lineStart.2) * (point.1 - lineStart.1)| ≤ tolerance
      ∧ 0 ≤ (lineEnd.1 - lineStart.1) * (point.1 - lineStart.1)
          + (lineEnd.2 - lineStart.2) * (point.2 - lineStart.2)
      ∧ (lineEnd.1 - lineStart.1) * (point.1 - lineStart.1)
          + (lineEnd.2 - lineStart.2) * (point.2 - lineStart.2)
        ≤ (lineEnd.1 - lineStart.1) * (lineEnd.1 - lineStart.1)
          + (lineEnd.2 - lineStart.2) * (lineEnd.2 - lineStart.2))
    ∧ (findIntersection p1 p2 p3 p4 = none ↔
        |(p2.2 - p1.2) * (p3.1 - p4.1) - (p4.2 - p3.2) * (p1.1 - p2.1)| < 1 / 10 ^ 10
        ∨ isPointOnLineSegment
            (((p3.1 - p4.1) * ((p2.2 - p1.2) * p1.1 + (p1.1 - p2.1) * p1.2)
                - (p1.1 - p2.1) * ((p4.2 - p3.2) * p3.1 + (p3.1 - p4.1) * p3.2))
              / ((p2.2 - p1.2) * (p3.1 - p4.1) - (p4.2 - p3.2) * (p1.1 - p2.1)),
             ((p2.2 - p1.2) * ((p4.2 - p3.2) * p3.1 + (p3.1 - p4.1) * p3.2)
                - (p4.2 - p3.2) * ((p2.2 - p1.2) * p1.1 + (p1.1 - p2.1) * p1.2))
              / ((p2.2 - p1.2) * (p3.1 - p4.1) - (p4.2 - p3.2) * (p1.1 - p2.1)))
            p1 p2 (1 / 10 ^ 10) = false
        ∨ isPointOnLineSegment
            (((p3.1 - p4.1) * ((p2.2 - p1.2) * p1.1 + (p1.1 - p2.1) * p1.2)
                - (p1.1 - p2.1) * ((p4.2 - p3.2) * p3.1 + (p3.1 - p4.1) * p3.2))
              / ((p2.2 - p1.2) * (p3.1 - p4.1) - (p4.2 - p3.2) * (p1.1 - p2.1)),
             ((p2.2 - p1.2) * ((p4.2 - p3.2) * p3.1 + (p3.1 - p4.1) * p3.2)
                - (p4.2 - p3.2) * ((p2.2 - p1.2) * p1.1 + (p1.1 - p2.1) * p1.2))
              / ((p2.2 - p1.2) * (p3.1 - p4.1) - (p4.2 - p3.2) * (p1.1 - p2.1)))
            p3 p4 (1 / 10 ^ 10) = false)
    ∧ findIntersection p1 p2 p3 p4
        = (if |(p2.2 - p1.2) * (p3.1 - p4.1) - (p4.2 - p3.2) * (p1.1 - p2.1)| < 1 / 10 ^ 10
           then none
           else if isPointOnLineSegment
                  (((p3.1 - p4.1) * ((p2.2 - p1.2) * p1.1 + (p1.1 - p2.1) * p1.2)
                      - (p1.1 - p2.1) * ((p4.2 - p3.2) * p3.1 + (p3.1 - p4.1) * p3.2))
                    / ((p2.2 - p1.2) * (p3.1 - p4.1) - (p4.2 - p3.2) * (p1.1 - p2.1)),
                   ((p2.2 - p1.2) * ((p4.2 - p3.2) * p3.1 + (p3.1 - p4.1) * p3.2)
                      - (p4.2 - p3.2) * ((p2.2 - p1.2) * p1.1 + (p1.1 - p2.1) * p1.2))
                    / ((p2.2 - p1.2) * (p3.1 - p4.1) - (p4.2 - p3.2) * (p1.1 - p2.1)))
                  p1 p2 (1 / 10 ^ 10)
                && isPointOnLineSegment
                  (((p3.1 - p4.1) * ((p2.2 - p1.2) * p1.1 + (p1.1 - p2.1) * p1.2)
                      - (p1.1 - p2.1) * ((p4.2 - p3.2) * p3.1 + (p3.1 - p4.1) * p3.2))
                    / ((p2.2 - p1.2) * (p3.1 - p4.1) - (p4.2 - p3.2) * (p1.1 - p2.1)),
                   ((p2.2 - p1.2) * ((p4.2 - p3.2) * p3.1 + (p3.1 - p4.1) * p3.2)
                      - (p4.2 - p3.2) * ((p2.2 - p1.2) * p1.1 + (p1.1 - p2.1) * p1.2))
                    / ((p2.2 - p1.2) * (p3.1 - p4.1) - (p4.2 - p3.2) * (p1.1 - p2.1)))
                  p3 p4 (1 / 10 ^ 10)
           then some
             (((p3.1 - p4.1) * ((p2.2 - p1.2) * p1.1 + (p1.1 - p2.1) * p1.2)
                 - (p1.1 - p2.1) * ((p4.2 - p3.2) * p3.1 + (p3.1 - p4.1) * p3.2))
               / ((p2.2 - p1.2) * (p3.1 - p4.1) - (p4.2 - p3.2) * (p1.1 - p2.1)),
              ((p2.2 - p1.2) * ((p4.2 - p3.2) * p3.1 + (p3.1 - p4.1) * p3.2)
                 - (p4.2 - p3.2) * ((p2.2 - p1.2) * p1.1 + (p1.1 - p2.1) * p1.2))
               / ((p2.2 - p1.2) * (p3.1 - p4.1) - (p4.2 - p3.2) * (p1.1 - p2.1)))
           else none) := by
  refine ⟨isPointOnLineSegment_iff point lineStart lineEnd tolerance,
    findIntersection_eq_none_iff p1 p2 p3 p4, ?_⟩
  simp only [findIntersection]

/-- Claim C9, counterexample.  Offset changes the scan-line positions
(the sweep starts at `min - offset`), so segments of the two runs do not
correspond: on the wedge ring with spacing `2`, the first segment of the
run with offset `1/2` has planar length `18`, strictly shorter than the
first segment of the run with offset `0`, which has length `20` (and the
run segment counts differ, 5 against 6). -/
theorem C9_counterexample :
    sweepEmit wedgePts 2 (1/2 : ℚ)
      = [((3/2, -9), (3/2, 9)), ((7/2, -7), (7/2, 7)), ((11/2, -5), (11/2, 5)),
         ((15/2, -3), (15/2, 3)), ((19/2, -1), (19/2, 1))]
    ∧ sweepEmit wedgePts 2 (0 : ℚ)
      = [((0, -10), (0, 10)), ((2, -8), (2, 8)), ((4, -6), (4, 6)),
         ((6, -4), (6, 4)), ((8, -2), (8, 2)), ((10, 0), (10, 0))]
    ∧ planarLength ((((3:ℚ)/2, (-9:ℚ)), ((3:ℚ)/2, (9:ℚ)))) = 18
    ∧ planarLength ((((0:ℚ), (-10:ℚ)), ((0:ℚ), (10:ℚ)))) = 20
    ∧ ¬ ((20:ℚ) < 18 ∨ ((18:ℚ) = 0 ∧ (20:ℚ) = 0)) := by
  have hl1 : leftBoundaryOf wedgePts (1/2 : ℚ) = -1/2 := by
    norm_num [leftBoundaryOf, wedgePts, minList]
  have hr1 : rightBoundaryOf wedgePts (1/2 : ℚ) = 21/2 := by
    norm_num [rightBoundaryOf, wedgePts, maxList]
  have hl0 : leftBoundaryOf wedgePts (0 : ℚ) = 0 := by
    norm_num [leftBoundaryOf, wedgePts, minList]
  have hr0 : rightBoundaryOf wedgePts (0 : ℚ) = 10 := by
    norm_num [rightBoundaryOf, wedgePts, maxList]
  have hsp1 : scanPositions (-1/2 : ℚ) (21/2) 2 = [-1/2, 3/2, 7/2, 11/2, 15/2, 19/2] := by
    rw [scanPositions_eq (-1/2) (21/2) 2 (by norm_num), scanCount,
      if_pos (by norm_num : (-1/2 : ℚ) ≤ 21/2),
      show ⌊((21:ℚ)/2 - -1/2) / 2⌋ = 5 by norm_num,
      show (5:ℤ).toNat + 1 = 6 by decide,
      show List.range 6 = [0, 1, 2, 3, 4, 5] by decide]
    norm_num
  have hsp0 : scanPositions (0 : ℚ) 10 2 = [0, 2, 4, 6, 8, 10] := by
    rw [scanPositions_eq 0 10 2 (by norm_num), scanCount,
      if_pos (by norm_num : (0 : ℚ) ≤ 10),
      show ⌊((10:ℚ) - 0) / 2⌋ = 5 by norm_num,
      show (5:ℤ).toNat + 1 = 6 by decide,
      show List.range 6 = [0, 1, 2, 3, 4, 5] by decide]
    norm_num
  have ha : lineSegments wedgePts (1/2 : ℚ) (-1/2) = [] := by
    norm_num [lineSegments, intersectionsAt, wedgePts, List.zip, List.filterMap_cons,
      stableSort, insertSorted, pairUp]
  have hb : lineSegments wedgePts (1/2 : ℚ) (3/2) = [((3/2, -9), (3/2, 9))] := by
    norm_num [lineSegments, intersectionsAt, wedgePts, List.zip, List.filterMap_cons,
      stableSort, insertSorted, pairUp, Prod.mk.injEq]
  have hc : lineSegments wedgePts (1/2 : ℚ) (7/2) = [((7/2, -7), (7/2, 7))] := by
    norm_num [lineSegments, intersectionsAt, wedgePts, List.zip, List.filterMap_cons,
      stableSort, insertSorted, pairUp, Prod.mk.injEq]
  have hd : lineSegments wedgePts (1/2 : ℚ) (11/2) = [((11/2, -5), (11/2, 5))] := by
    norm_num [lineSegments, intersectionsAt, wedgePts, List.zip, List.filterMap_cons,
      stableSort, insertSorted, pairUp, Prod.mk.injEq]
  have he : lineSegments wedgePts (1/2 : ℚ) (15/2) = [((15/2, -3), (15/2, 3))] := by
    norm_num [lineSegments, intersectionsAt, wedgePts, List.zip, List.filterMap_cons,
      stableSort, insertSorted, pairUp, Prod.mk.injEq]
  have hf : lineSegments wedgePts (1/2 : ℚ) (19/2) = [((19/2, -1), (19/2, 1))] := by
    norm_num [lineSegments, intersectionsAt, wedgePts, List.zip, List.filterMap_cons,
      stableSort, insertSorted, pairUp, Prod.mk.injEq]
  have hg : lineSegments wedgePts (0 : ℚ) 0 = [((0, -10), (0, 10))] := by
    norm_num [lineSegments, intersectionsAt, wedgePts, List.zip, List.filterMap_cons,
      stableSort, insertSorted, pairUp, Prod.mk.injEq]
  have hh : lineSegments wedgePts (0 : ℚ) 2 = [((2, -8), (2, 8))] := by
    norm_num [lineSegments, intersectionsAt, wedgePts, List.zip, List.filterMap_cons,
      stableSort, insertSorted, pairUp, Prod.mk.injEq]
  have hi : lineSegments wedgePts (0 : ℚ) 4 = [((4, -6), (4, 6))] := by
    norm_num [lineSegments, intersectionsAt, wedgePts, List.zip, List.filterMap_cons,
      stableSort, insertSorted, pairUp, Prod.mk.injEq]
  have hj : lineSegments wedgePts (0 : ℚ) 6 = [((6, -4), (6, 4))] := by
    norm_num [lineSegments, intersectionsAt, wedgePts, List.zip, List.filterMap_cons,
      stableSort, insertSorted, pairUp, Prod.mk.injEq]
  have hk : lineSegments wedgePts (0 : ℚ) 8 = [((8, -2), (8, 2))] := by
    norm_num [lineSegments, intersectionsAt, wedgePts, List.zip, List.filterMap_cons,
      stableSort, insertSorted, pairUp, Prod.mk.injEq]
  have hm : lineSegments wedgePts (0 : ℚ) 10 = [((10, 0), (10, 0))] := by
    norm_num [lineSegments, intersectionsAt, wedgePts, List.zip, List.filterMap_cons,
      stableSort, insertSorted, pairUp, Prod.mk.injEq]
  refine ⟨?_, ?_, by norm_num [planarLength], by norm_num [planarLength], by norm_num⟩
  · rw [sweepEmit, hl1, hr1, hsp1]
    simp only [List.flatMap_cons, List.flatMap_nil, List.append_nil, ha, hb, hc, hd, he, hf]
    simp
  · rw [sweepEmit, hl0, hr0, hsp0]
    simp only [List.flatMap_cons, List.flatMap_nil, List.append_nil, hg, hh, hi, hj, hk, hm]
    simp

/-- Claim C9, amended.  The monotonicity holds per scan line, not per run:
for the same polygon and the same scan-line position, the segment at any
index `k` emitted with offset `o > 0` is exactly `2 o` longer than the
segment at index `k` emitted with offset `0`, hence strictly longer.
Across whole runs the claimed correspondence fails, because the offset also
shifts the scan-line positions (see the counterexample). -/
theorem C9_amended (pts : List (ℚ × ℚ)) (x0 o : ℚ) (ho : 0 < o) (k : ℕ)
    (dummySeg : (ℚ × ℚ) × (ℚ × ℚ))
    (hk : k < (lineSegments pts o x0).length)
    (hk0 : k < (lineSegments pts 0 x0).length) :
    planarLength ((lineSegments pts o x0).getD k dummySeg)
      = planarLength ((lineSegments pts 0 x0).getD k dummySeg) + 2 * o
    ∧ planarLength ((lineSegments pts 0 x0).getD k dummySeg)
      < planarLength ((lineSegments pts o x0).getD k dummySeg) := by
  rw [List.getD_eq_getElem _ _ hk, List.getD_eq_getElem _ _ hk0]
  simp only [lineSegments, List.getElem_map, planarLength]
  constructor
  · ring
  · linarith

/-- Claim C9, witness for the amended theorem on the wedge ring at
scan-line position `3/2`, offset `1/2`, index `0`. -/
theorem C9_amended_witness :
    (0 : ℚ) < 1/2
    ∧ 0 < (lineSegments wedgePts (1/2 : ℚ) (3/2)).length
    ∧ 0 < (lineSegments wedgePts (0 : ℚ) (3/2)).length
    ∧ planarLength ((lineSegments wedgePts (1/2 : ℚ) (3/2)).getD 0 ((0, 0), (0, 0)))
        = planarLength ((lineSegments wedgePts (0 : ℚ) (3/2)).getD 0 ((0, 0), (0, 0))) + 2 * (1/2) := by
  have hlen1 : (lineSegments wedgePts (1/2 : ℚ) (3/2)).length = 1 := by
    norm_num [lineSegments, intersectionsAt, wedgePts, List.zip, List.filterMap_cons,
      stableSort, insertSorted, pairUp]
  have hlen0 : (lineSegments wedgePts (0 : ℚ) (3/2)).length = 1 := by
    norm_num [lineSegments, intersectionsAt, wedgePts, List.zip, List.filterMap_cons,
      stableSort, insertSorted, pairUp]
  exact ⟨by norm_num, by rw [hlen1]; norm_num, by rw [hlen0]; norm_num,
    (C9_amended wedgePts (3/2) (1/2) (by norm_num) 0 ((0, 0), (0, 0))
      (by rw [hlen1]; norm_num) (by rw [hlen0]; norm_num)).1⟩

/-- Claim C10, confirmed.  In the geodesic variant an explicit `0` for the
step or the offset produces exactly the output of omitting the parameter
(the `||` defaults replace the falsy `0` by `100` and `50`), for every
collaborator model and every input; the planar variant resolves its
parameters with destructuring defaults (`Option.getD`), which keep an
explicit `0`, and an explicit extension `0` produces output different from
the omitted-parameter default `50` on the diamond ring with spacing
`1000`. -/
theorem C10_defaults (E : EllipsoidModel ℚ) (coords : List (ℚ × ℚ)) (st bg off : Option ℚ) :
    createParallelHatchingGeo E ⟨coords, some 0, bg, off⟩
        = createParallelHatchingGeo E ⟨coords, none, bg, off⟩
    ∧ createParallelHatchingGeo E ⟨coords, st, bg, some 0⟩
        = createParallelHatchingGeo E ⟨coords, st, bg, none⟩
    ∧ jsOr (some (0:ℚ)) 100 = 100 ∧ jsOr (none : Option ℚ) 100 = 100
    ∧ jsOr (some (0:ℚ)) 50 = 50
    ∧ (some (0:ℚ)).getD 100 = 0 ∧ (some (0:ℚ)).getD 50 = 0
    ∧ sweepEmit diamondPts 1000 ((some (0:ℚ)).getD 50) = [((0, 0), (0, 0))]
    ∧ sweepEmit diamondPts 1000 ((none : Option ℚ).getD 50) = [] := by
  have hz : ((some (0:ℚ)).getD 50) = 0 := rfl
  have hn : ((none : Option ℚ).getD 50) = 50 := rfl
  have hl0 : leftBoundaryOf diamondPts (0 : ℚ) = 0 := by
    norm_num [leftBoundaryOf, diamondPts, minList]
  have hr0 : rightBoundaryOf diamondPts (0 : ℚ) = 4 := by
    norm_num [rightBoundaryOf, diamondPts, maxList]
  have hl50 : leftBoundaryOf diamondPts (50 : ℚ) = -50 := by
    norm_num [leftBoundaryOf, diamondPts, minList]
  have hr50 : rightBoundaryOf diamondPts (50 : ℚ) = 54 := by
    norm_num [rightBoundaryOf, diamondPts, maxList]
  have hsp0 : scanPositions (0 : ℚ) 4 1000 = [0] := by
    rw [scanPositions_eq 0 4 1000 (by norm_num), scanCount,
      if_pos (by norm_num : (0 : ℚ) ≤ 4),
      show ⌊((4:ℚ) - 0) / 1000⌋ = 0 by norm_num,
      show (0:ℤ).toNat + 1 = 1 by decide,
      show List.range 1 = [0] by decide]
    norm_num
  have hsp50 : scanPositions (-50 : ℚ) 54 1000 = [-50] := by
    rw [scanPositions_eq (-50) 54 1000 (by norm_num), scanCount,
      if_pos (by norm_num : (-50 : ℚ) ≤ 54),
      show ⌊((54:ℚ) - -50) / 1000⌋ = 0 by norm_num,
      show (0:ℤ).toNat + 1 = 1 by decide,
      show List.range 1 = [0] by decide]
    norm_num
  have hseg0 : lineSegments diamondPts (0 : ℚ) 0 = [((0, 0), (0, 0))] := by
    norm_num [lineSegments, intersectionsAt, diamondPts, List.zip, List.filterMap_cons,
      stableSort, insertSorted, pairUp, Prod.mk.injEq]
  have hseg50 : lineSegments diamondPts (50 : ℚ) (-50) = [] := by
    norm_num [lineSegments, intersectionsAt, diamondPts, List.zip, List.filterMap_cons,
      stableSort, insertSorted, pairUp]
  refine ⟨geo_step_some_zero E coords bg off, geo_offset_some_zero E coords st bg,
    by norm_num [jsOr], rfl, by norm_num [jsOr], rfl, rfl, ?_, ?_⟩
  · rw [hz, sweepEmit, hl0, hr0, hsp0]
    simp only [List.flatMap_cons, List.flatMap_nil, List.append_nil, hseg0]
  · rw [hn, sweepEmit, hl50, hr50, hsp50]
    simp only [List.flatMap_cons, List.flatMap_nil, List.append_nil, hseg50]

end Hatching
